import Mathlib

set_option maxRecDepth 100000

/-!
Verification of the universal-silabs-flasher core: the CRC-16 checksum engine
and XMODEM-128/CRC sender (src/universal_silabs_flasher/xmodemcrc.py) and the
shared utilities (src/universal_silabs_flasher/common.py).

Bytes are modelled as natural numbers, byte strings as lists of naturals,
16-bit registers as naturals kept below 2^16 with explicit truncation.
-/

namespace Usf

/-! ## Checksum engine (common.py, CRC_CCITT / CRC_KERMIT / crc16_ccitt / crc16_kermit)

The repository configures the external `crc` package with two parameter sets.
That package implements the standard parameterized (Rocksoft-model) bitwise
CRC: an MSB-first shift register, with each input byte bit-reversed when
`reverse_input` is set, the final register bit-reversed when `reverse_output`
is set, and the result XORed with `final_xor_value`. -/

/-- Reverse the low `w` bits of `x` (bit `i` of the input becomes bit
`w - 1 - i` of the output). -/
def reflectBits : Nat → Nat → Nat
  | 0, _ => 0
  | w + 1, x => x % 2 * 2 ^ w + reflectBits w (x / 2)

/-- Mirror of `crc.Configuration` (width fixed at 16). -/
structure CrcConfig where
  polynomial : Nat
  init_value : Nat
  final_xor_value : Nat
  reverse_input : Bool
  reverse_output : Bool

/-- One MSB-first shift-register step of a width-16 CRC: shift in one data
bit, XORing in the polynomial when the bit shifted out differs from it. -/
def msbStep (poly s : Nat) (bit : Bool) : Nat :=
  let shifted := 2 * s % 65536
  if s.testBit 15 != bit then shifted ^^^ poly else shifted

/-- Feed one byte into the register, most significant bit first. -/
def msbByte (poly s b : Nat) : Nat :=
  (List.range 8).foldl (fun acc i => msbStep poly acc (b.testBit (7 - i))) s

/-- Model of `crc.Calculator(cfg).checksum(data)`: the Rocksoft-model CRC-16. -/
def crcChecksum (cfg : CrcConfig) (data : List Nat) : Nat :=
  let input := if cfg.reverse_input then data.map (reflectBits 8) else data
  let r := input.foldl (msbByte cfg.polynomial) cfg.init_value
  let r' := if cfg.reverse_output then reflectBits 16 r else r
  r' ^^^ cfg.final_xor_value

/-- common.py `CRC_CCITT` configuration. -/
def CRC_CCITT : CrcConfig :=
  { polynomial := 0x1021
    init_value := 0x0000
    final_xor_value := 0x0000
    reverse_input := false
    reverse_output := false }

/-- common.py `CRC_KERMIT` configuration. -/
def CRC_KERMIT : CrcConfig :=
  { polynomial := 0x1021
    init_value := 0xFFFF
    final_xor_value := 0xFFFF
    reverse_input := true
    reverse_output := true }

/-- common.py `crc16_ccitt`. -/
def crc16_ccitt (data : List Nat) : Nat :=
  crcChecksum CRC_CCITT data

/-- common.py `crc16_kermit`. -/
def crc16_kermit (data : List Nat) : Nat :=
  crcChecksum CRC_KERMIT data

/-! Spec-side reference algorithms for the two variants, written as the
classic direct implementations rather than through the Rocksoft model:
Variant A as the plain MSB-first register, Variant B as the reflected
(LSB-first) register with the bit-reversed polynomial `0x8408`. -/

/-- Reference Variant A ("CCITT-style"): init 0, MSB-first, no reversal,
final XOR 0. -/
def crcCcittRef (data : List Nat) : Nat :=
  data.foldl (msbByte 0x1021) 0x0000

/-- One LSB-first shift-register step with the reversed polynomial. -/
def lsbStep (poly s : Nat) (bit : Bool) : Nat :=
  if s.testBit 0 != bit then s / 2 ^^^ poly else s / 2

/-- Feed one byte into the reflected register, least significant bit first. -/
def lsbByte (poly s b : Nat) : Nat :=
  (List.range 8).foldl (fun acc i => lsbStep poly acc (b.testBit i)) s

/-- Reference Variant B ("Kermit-style"): the reflected algorithm with
reversed polynomial 0x8408, init 0xFFFF, final XOR 0xFFFF. -/
def crcKermitRef (data : List Nat) : Nat :=
  data.foldl (lsbByte 0x8408) 0xFFFF ^^^ 0xFFFF

/-! ## pad_to_multiple (common.py) -/

/-- Python `bytes * n` repetition. -/
def bytesRepeat (b : List Nat) (n : Nat) : List Nat :=
  (List.replicate n b).flatten

/-- common.py `pad_to_multiple`; `none` models the assertion failure when
`padding` is not a single byte. -/
def pad_to_multiple (data : List Nat) (multiple : Nat) (padding : List Nat) :
    Option (List Nat) :=
  if padding.length ≠ 1 then none
  else if data.length % multiple = 0 then some data
  else
    let num_complete_blocks := data.length / multiple
    let padded_size := multiple * (num_complete_blocks + 1)
    some (data ++ bytesRepeat padding (padded_size - data.length))

/-! ## StateMachine (common.py)

Waiter futures are modelled by identifiers: `pending` records the registered
futures per state name in registration order (`_futures_for_state`), and
`resolved` the identifiers on which `set_result` has been called.  asyncio's
`Future.set_result` raises `InvalidStateError` when the future is already
done; resolving never removes a registration (removal happens only in
`wait_for_state`'s cleanup, when the waiting task resumes). -/

inductive SMError where
  | invalidState
  | futureAlreadyDone
  deriving DecidableEq, Repr

structure StateMachine where
  states : List String
  state : String
  pending : List (String × Nat)
  resolved : List Nat
  nextId : Nat
  deriving DecidableEq, Repr

/-- Constructor `StateMachine.__init__`: fails when the initial state is undeclared. -/
def StateMachine.new (states : List String) (initial : String) :
    Except SMError StateMachine :=
  if initial ∈ states then
    .ok { states := states, state := initial, pending := [], resolved := [],
          nextId := 0 }
  else
    .error .invalidState

/-- The `for future in ...: future.set_result(None)` loop: resolve each
identifier in turn, stopping with an error at the first already-done one.
Returns the outcome together with the resolved set as mutated so far. -/
def resolveAll (resolved : List Nat) : List Nat → Except SMError Unit × List Nat
  | [] => (.ok (), resolved)
  | fid :: rest =>
    if fid ∈ resolved then (.error .futureAlreadyDone, resolved)
    else resolveAll (resolved ++ [fid]) rest

/-- The `state` property setter (the spec's `transition`): reject undeclared
names, otherwise set the active state and wake every waiter registered for
it.  The machine is returned alongside the outcome so mutation (or its
absence) on the failure paths is visible. -/
def StateMachine.setState (sm : StateMachine) (s : String) :
    Except SMError Unit × StateMachine :=
  if s ∈ sm.states then
    let sm1 := { sm with state := s }
    let out := resolveAll sm1.resolved
      ((sm1.pending.filter (fun p => p.1 = s)).map Prod.snd)
    (out.1, { sm1 with resolved := out.2 })
  else
    (.error .invalidState, sm)

inductive WaitResult where
  | immediate
  | suspended (fid : Nat)
  deriving DecidableEq, Repr

/-- Operation `wait_for_state` up to its first suspension point: `none` models the
`assert` failing on an undeclared name; `immediate` the early return when the
state is already active; `suspended fid` the registration of a fresh waiter
future. -/
def StateMachine.wait_for_state (sm : StateMachine) (s : String) :
    Option (WaitResult × StateMachine) :=
  if s ∈ sm.states then
    if sm.state = s then some (.immediate, sm)
    else
      some (.suspended sm.nextId,
        { sm with pending := sm.pending ++ [(s, sm.nextId)],
                  nextId := sm.nextId + 1 })
  else none

/-- A quiescent coordinator: waiter identifiers are pairwise distinct and
every registered waiter is still pending (its future not yet resolved).
This holds whenever no transition has fired since the registered waiters
were created, and `transition` on such a machine never trips asyncio's
already-done check. -/
def StateMachine.WF (sm : StateMachine) : Prop :=
  (sm.pending.map Prod.snd).Nodup ∧ ∀ q ∈ sm.pending, q.2 ∉ sm.resolved

instance (sm : StateMachine) : Decidable sm.WF := by
  unfold StateMachine.WF
  infer_instance

/-- Sample coordinator used by the witnesses: two declared states, active
state "a", one waiter registered for "b". -/
def smSample : StateMachine :=
  { states := ["a", "b"], state := "a", pending := [("b", 0)],
    resolved := [], nextId := 1 }

/-! ## XMODEM-128/CRC sender (xmodemcrc.py)

The sender is an async coroutine over an `asyncio.Transport`.  It is embedded
in explicit state-passing style: an `XState` records the observable
interactions with the transport (chronological writes, single-byte response
reads, the stream-reader buffer, progress-callback invocations and the
transport's attached protocol), an `Env` gives the receiver's behaviour (the
handshake outcome and the byte answered to each single-byte read, `none`
standing for an external cancellation raised while awaiting).  Each raise
site maps to its own `SendError` value. -/

/-- xmodemcrc.py `BLOCK_SIZE`. -/
def BLOCK_SIZE : Nat := 128

/-- xmodemcrc.py `Symbol` values. -/
def SOH : Nat := 0x01
def EOT : Nat := 0x04
def CAN : Nat := 0x18
def ETB : Nat := 0x17
def ACK : Nat := 0x06
def NAK : Nat := 0x15

/-- Big-endian 16-bit serialization, `int.to_bytes(2, "big")`. -/
def toBytesBE2 (x : Nat) : List Nat :=
  [x / 256, x % 256]

/-- xmodemcrc.py `Xmodem128CRCPacket` (`number` is a `uint8_t`, kept below
256 by every constructor in the program). -/
structure Xmodem128CRCPacket where
  number : Nat
  payload : List Nat

/-- Serialization `Xmodem128CRCPacket.serialize`. -/
def Xmodem128CRCPacket.serialize (p : Xmodem128CRCPacket) : List Nat :=
  [SOH, p.number, 0xFF - p.number] ++ p.payload
    ++ toBytesBE2 (crc16_ccitt p.payload)

/-- Distinct error outcomes of the sender, one per raise site: the three
`ValueError`s (bad length, retry budget exhausted, unexpected response
byte), `ReceiverCancelled`, and an external `asyncio.CancelledError`
delivered at an await point. -/
inductive SendError where
  | invalidInput
  | tooManyFailures
  | receiverCancelled
  | protocolViolation
  | cancelled
  deriving DecidableEq, Repr

/-- Observable transport interaction state. -/
structure XState where
  writes : List (List Nat)
  reads : Nat
  buffer : List Nat
  progress : List (Nat × Nat)
  protocol : Nat
  protocolSets : Nat
  deriving DecidableEq, Repr

/-- Receiver/environment behaviour.  `handshake = some rest` means an ASCII
"C" was observed with `rest` the bytes already queued behind it; `none`
means the caller was cancelled while awaiting the handshake.  `rsp k` is the
byte answering the k-th single-byte read (counted over the whole call),
`none` a cancellation delivered at that read. -/
structure Env where
  handshake : Option (List Nat)
  rsp : Nat → Option Nat

/-- Write `writer.write(data)` (with `drain`). -/
def writeData (st : XState) (data : List Nat) : XState :=
  { st with writes := st.writes ++ [data] }

/-- Read `reader.readexactly(1)`: consume the stream-reader buffer first,
otherwise take the environment's next response byte. -/
def readByte (env : Env) (st : XState) : Option (Nat × XState) :=
  match st.buffer with
  | b :: rest => some (b, { st with buffer := rest })
  | [] =>
    match env.rsp st.reads with
    | some b => some (b, { st with reads := st.reads + 1 })
    | none => none

/-- The retry loop of `send_xmodem128_crc_data`, with `n` the number of
attempts still allowed (the Python loop runs `attempt` over
`range(max_failures + 1)`; `attempt >= max_failures` holds exactly when one
attempt remains).  The 0 case is never reached from a positive start. -/
def sendDataLoop (data : List Nat) (env : Env) :
    Nat → XState → Except SendError Unit × XState
  | 0, st => (.error .tooManyFailures, st)
  | n + 1, st =>
    let st1 := writeData st data
    match readByte env st1 with
    | none => (.error .cancelled, st1)
    | some (b, st2) =>
      if b = ACK then (.ok (), st2)
      else if b = NAK then
        if n = 0 then (.error .tooManyFailures, st2)
        else sendDataLoop data env n st2
      else if b = CAN then (.error .receiverCancelled, st2)
      else (.error .protocolViolation, st2)

/-- xmodemcrc.py `send_xmodem128_crc_data`. -/
def send_xmodem128_crc_data (data : List Nat) (env : Env) (max_failures : Nat)
    (st : XState) : Except SendError Unit × XState :=
  sendDataLoop data env (max_failures + 1) st

/-- The 128-byte slice `data[BLOCK_SIZE * index : BLOCK_SIZE * (index + 1)]`. -/
def blockSlice (data : List Nat) (index : Nat) : List Nat :=
  (data.drop (BLOCK_SIZE * index)).take BLOCK_SIZE

/-- The packet built for one block: `number = (index + 1) & 0xFF`. -/
def blockPacket (data : List Nat) (index : Nat) : Xmodem128CRCPacket :=
  { number := (index + 1) % 256, payload := blockSlice data index }

/-- The `for index in range(...)` loop of `send_xmodem128_crc`, over the
list of remaining block indices.  `cb` records whether a progress callback
was supplied; `total` is `len(data)`. -/
def sendBlocks (data : List Nat) (env : Env) (max_failures : Nat) (cb : Bool) :
    List Nat → XState → Except SendError Unit × XState
  | [], st => (.ok (), st)
  | index :: rest, st =>
    match send_xmodem128_crc_data (blockPacket data index).serialize env
        max_failures st with
    | (.ok _, st1) =>
      let st2 :=
        if cb then
          { st1 with progress :=
              st1.progress ++ [((index + 1) * BLOCK_SIZE, data.length)] }
        else st1
      sendBlocks data env max_failures cb rest st2
    | (.error e, st1) => (.error e, st1)

/-- The body of `send_xmodem128_crc`'s `try` block: handshake (leaving any
already-queued remainder in the reader buffer), initial progress callback,
explicit buffer clear, the block loop, then the end-of-transmission byte. -/
def sendBody (data : List Nat) (env : Env) (max_failures : Nat) (cb : Bool)
    (st : XState) : Except SendError Unit × XState :=
  match env.handshake with
  | none => (.error .cancelled, st)
  | some rest =>
    let st1 := { st with buffer := rest }
    let st2 :=
      if cb then { st1 with progress := st1.progress ++ [(0, data.length)] }
      else st1
    let st3 := { st2 with buffer := [] }
    match sendBlocks data env max_failures cb
        (List.range (data.length / BLOCK_SIZE)) st3 with
    | (.ok _, st4) => send_xmodem128_crc_data [EOT] env max_failures st4
    | (.error e, st4) => (.error e, st4)

/-- xmodemcrc.py `send_xmodem128_crc` (default `max_failures = 3`): length
precondition, protocol swap, body, and the `finally` that restores the
transport's previous protocol on every exit path. -/
def send_xmodem128_crc (data : List Nat) (env : Env) (max_failures : Nat)
    (cb : Bool) (st : XState) : Except SendError Unit × XState :=
  if data.length % BLOCK_SIZE ≠ 0 then (.error .invalidInput, st)
  else
    let old_protocol := st.protocol
    let st1 := { st with protocol := st.protocol + 1,
                         protocolSets := st.protocolSets + 1 }
    let out := sendBody data env max_failures cb st1
    (out.1, { out.2 with protocol := old_protocol,
                         protocolSets := out.2.protocolSets + 1 })

/-! ## Concrete fixtures used to witness the theorems on sample inputs -/

/-- A fresh transport interaction state. -/
def st0 : XState :=
  { writes := [], reads := 0, buffer := [], progress := [], protocol := 7,
    protocolSets := 0 }

/-- Receiver that completes the handshake and ACKs everything. -/
def envAllAck : Env :=
  { handshake := some [0x43], rsp := fun _ => some ACK }

/-- Receiver that completes the handshake and NAKs everything. -/
def envAllNak : Env :=
  { handshake := some [], rsp := fun _ => some NAK }

/-- Receiver that NAKs the first packet once, then ACKs. -/
def envNakThenAck : Env :=
  { handshake := some [], rsp := fun k => if k = 0 then some NAK else some ACK }

/-- Receiver that cancels the transfer on the first response. -/
def envAllCan : Env :=
  { handshake := some [], rsp := fun _ => some CAN }

/-- Receiver that answers an out-of-protocol byte. -/
def envBadByte : Env :=
  { handshake := some [], rsp := fun _ => some 0x2A }

/-- Environment in which the caller is cancelled at every read. -/
def envCancelled : Env :=
  { handshake := some [], rsp := fun _ => none }

/-- Environment in which the caller is cancelled during the handshake. -/
def envNoHandshake : Env :=
  { handshake := none, rsp := fun _ => none }

/-! ## Bit-reversal lemmas for the checksum engine -/

theorem reflectBits_lt (w x : Nat) : reflectBits w x < 2 ^ w := by
  induction w generalizing x with
  | zero => simp [reflectBits]
  | succ w ih =>
    have h1 := ih (x / 2)
    have e : 2 ^ (w + 1) = 2 ^ w * 2 := pow_succ 2 w
    rcases Nat.mod_two_eq_zero_or_one x with h | h <;>
      simp only [reflectBits, h] <;> omega

theorem testBit_add_mul_two_pow_lo (a r w i : Nat) (hi : i < w) :
    (a * 2 ^ w + r).testBit i = r.testBit i := by
  rw [Nat.testBit_to_div_mod, Nat.testBit_to_div_mod]
  have e : a * 2 ^ w + r = r + a * 2 ^ (w - i - 1) * 2 * 2 ^ i := by
    have h : 2 ^ w = 2 ^ (w - i - 1) * 2 * 2 ^ i := by
      rw [← pow_succ, ← pow_add]
      congr 1
      omega
    rw [h]
    ring
  rw [e, Nat.add_mul_div_right _ _ (Nat.pos_pow_of_pos i (by norm_num)),
    mul_comm (a * 2 ^ (w - i - 1)) 2, Nat.add_mul_mod_self_left]

theorem testBit_add_mul_two_pow_hi (a r w : Nat) (hr : r < 2 ^ w) (ha : a ≤ 1) :
    (a * 2 ^ w + r).testBit w = decide (a = 1) := by
  rw [Nat.testBit_to_div_mod]
  have e : (a * 2 ^ w + r) / 2 ^ w = a := by
    rw [add_comm,
      Nat.add_mul_div_right _ _ (Nat.pos_pow_of_pos w (by norm_num)),
      Nat.div_eq_of_lt hr, zero_add]
  rw [e, Nat.mod_eq_of_lt (by omega)]

theorem reflectBits_testBit (w x i : Nat) :
    (reflectBits w x).testBit i = (decide (i < w) && x.testBit (w - 1 - i)) := by
  induction w generalizing x i with
  | zero => simp [reflectBits]
  | succ w ih =>
    by_cases h1 : i < w
    · rw [show reflectBits (w + 1) x = x % 2 * 2 ^ w + reflectBits w (x / 2)
        from rfl]
      rw [testBit_add_mul_two_pow_lo _ _ _ _ h1, ih]
      have hs : w + 1 - 1 - i = w - 1 - i + 1 := by omega
      rw [hs, Nat.testBit_succ]
      simp [h1, Nat.lt_succ_of_lt h1]
    · by_cases h2 : i = w
      · subst h2
        rw [show reflectBits (i + 1) x = x % 2 * 2 ^ i + reflectBits i (x / 2)
          from rfl]
        rw [testBit_add_mul_two_pow_hi _ _ _ (reflectBits_lt i (x / 2))
          (by omega)]
        simp [Nat.testBit_zero, Nat.lt_succ_self]
      · have hgt : w < i := by omega
        have hlt : reflectBits (w + 1) x < 2 ^ i :=
          lt_of_lt_of_le (reflectBits_lt _ _)
            (Nat.pow_le_pow_right (by norm_num) (by omega))
        rw [Nat.testBit_lt_two_pow hlt]
        simp [show ¬(i < w + 1) by omega]

theorem reflectBits_xor (w a b : Nat) :
    reflectBits w (a ^^^ b) = reflectBits w a ^^^ reflectBits w b := by
  apply Nat.eq_of_testBit_eq
  intro i
  simp only [reflectBits_testBit, Nat.testBit_xor]
  by_cases h : i < w <;> simp [h]

theorem reflectBits_double (s : Nat) :
    reflectBits 16 (2 * s % 65536) = reflectBits 16 s / 2 := by
  apply Nat.eq_of_testBit_eq
  intro i
  rw [Nat.testBit_div_two, reflectBits_testBit, reflectBits_testBit,
    show (65536 : Nat) = 2 ^ 16 by norm_num, Nat.testBit_mod_two_pow,
    show 2 * s = s <<< 1 by rw [Nat.shiftLeft_eq]; ring,
    Nat.testBit_shiftLeft]
  by_cases h1 : i < 15
  · have e1 : 16 - 1 - i < 16 := by omega
    have e2 : 16 - 1 - i ≥ 1 := by omega
    have e3 : 16 - 1 - i - 1 = 16 - 1 - (i + 1) := by omega
    simp [e1, e2, e3, show i < 16 by omega, show i + 1 < 16 by omega]
  · by_cases h2 : i = 15
    · subst h2
      simp
    · simp [show ¬i < 16 by omega, show ¬i + 1 < 16 by omega]

theorem reflectBits_testBit15 (s : Nat) :
    (reflectBits 16 s).testBit 0 = s.testBit 15 := by
  rw [reflectBits_testBit]
  norm_num

/-- One MSB-first step on the register corresponds, through 16-bit
reflection, to one LSB-first step with the bit-reversed polynomial. -/
theorem msbStep_reflect (s : Nat) (bit : Bool) :
    reflectBits 16 (msbStep 0x1021 s bit)
      = lsbStep 0x8408 (reflectBits 16 s) bit := by
  unfold msbStep lsbStep
  rw [reflectBits_testBit15]
  cases hc : (s.testBit 15 != bit) <;> simp only [hc, if_true, if_false]
  · exact reflectBits_double s
  · rw [reflectBits_xor, reflectBits_double,
      show reflectBits 16 0x1021 = 0x8408 by decide]

theorem range_eight : List.range 8 = [0, 1, 2, 3, 4, 5, 6, 7] := by decide

/-- Feeding the bit-reversed byte MSB-first corresponds, through 16-bit
reflection, to feeding the byte itself LSB-first. -/
theorem msbByte_reflect (s b : Nat) :
    reflectBits 16 (msbByte 0x1021 s (reflectBits 8 b))
      = lsbByte 0x8408 (reflectBits 16 s) b := by
  simp only [msbByte, lsbByte, range_eight, List.foldl_cons, List.foldl_nil,
    reflectBits_testBit]
  norm_num
  simp only [msbStep_reflect]

theorem foldl_msbByte_reflect (l : List Nat) (s : Nat) :
    reflectBits 16 ((l.map (reflectBits 8)).foldl (msbByte 0x1021) s)
      = l.foldl (lsbByte 0x8408) (reflectBits 16 s) := by
  induction l generalizing s with
  | nil => rfl
  | cons b rest ih =>
    simp only [List.map_cons, List.foldl_cons, ih, msbByte_reflect]

/-! ## Range of the checksum engine -/

theorem msbStep_lt (poly s : Nat) (bit : Bool) (hp : poly < 65536) :
    msbStep poly s bit < 65536 := by
  unfold msbStep
  have hs : 2 * s % 65536 < 65536 := Nat.mod_lt _ (by norm_num)
  split
  · exact Nat.xor_lt_two_pow (n := 16) (by norm_num at hs ⊢; omega) hp
  · exact hs

theorem msbByte_lt (poly s b : Nat) (hp : poly < 65536) :
    msbByte poly s b < 65536 := by
  simp only [msbByte, range_eight, List.foldl_cons, List.foldl_nil]
  exact msbStep_lt _ _ _ hp

theorem foldl_msbByte_lt (poly : Nat) (l : List Nat) (s : Nat)
    (hp : poly < 65536) (hs : s < 65536) :
    l.foldl (msbByte poly) s < 65536 := by
  induction l generalizing s with
  | nil => exact hs
  | cons b rest ih => exact ih _ (msbByte_lt _ _ _ hp)

theorem crc16_ccitt_lt (data : List Nat) : crc16_ccitt data < 65536 := by
  have h := foldl_msbByte_lt 0x1021 data 0 (by norm_num) (by norm_num)
  simpa [crc16_ccitt, crcChecksum, CRC_CCITT] using h

/-- C7: for every byte string, crc16_ccitt and crc16_kermit compute exactly
the CRC-16s given by the spec's two parameter sets (shared polynomial
0x1021; Variant A: init 0x0000, no reversal, final XOR 0x0000; Variant B:
init 0xFFFF, input and output bit-reversed, final XOR 0xFFFF), and they
match the direct CCITT-style (plain MSB-first) and Kermit-style (reflected,
LSB-first with bit-reversed polynomial) reference algorithms bit-for-bit,
including the reflect-in/reflect-out ordering. -/
theorem crc_engine_matches_reference (data : List Nat) :
    crc16_ccitt data = crcChecksum
        { polynomial := 0x1021, init_value := 0x0000, final_xor_value := 0x0000,
          reverse_input := false, reverse_output := false } data
    ∧ crc16_kermit data = crcChecksum
        { polynomial := 0x1021, init_value := 0xFFFF, final_xor_value := 0xFFFF,
          reverse_input := true, reverse_output := true } data
    ∧ crc16_ccitt data = crcCcittRef data
    ∧ crc16_kermit data = crcKermitRef data := by
  refine ⟨rfl, rfl, ?_, ?_⟩
  · simp [crc16_ccitt, crcChecksum, CRC_CCITT, crcCcittRef]
  · show reflectBits 16 ((data.map (reflectBits 8)).foldl (msbByte 0x1021)
      0xFFFF) ^^^ 0xFFFF = crcKermitRef data
    rw [foldl_msbByte_reflect, show reflectBits 16 0xFFFF = 0xFFFF by decide]
    rfl

/-! ## Retry-loop lemmas (send_xmodem128_crc_data) -/

/-- One unfolding of the retry loop from a state with an empty reader
buffer: write the packet, read one byte, classify. -/
theorem sendDataLoop_succ (data : List Nat) (env : Env) (n : Nat) (st : XState)
    (hbuf : st.buffer = []) :
    sendDataLoop data env (n + 1) st =
      (match env.rsp st.reads with
       | none => (.error .cancelled,
           { st with writes := st.writes ++ [data] })
       | some b =>
         if b = ACK then (.ok (),
           { st with writes := st.writes ++ [data], reads := st.reads + 1 })
         else if b = NAK then
           if n = 0 then (.error .tooManyFailures,
             { st with writes := st.writes ++ [data], reads := st.reads + 1 })
           else sendDataLoop data env n
             { st with writes := st.writes ++ [data], reads := st.reads + 1 }
         else if b = CAN then (.error .receiverCancelled,
           { st with writes := st.writes ++ [data], reads := st.reads + 1 })
         else (.error .protocolViolation,
           { st with writes := st.writes ++ [data], reads := st.reads + 1 })) := by
  obtain ⟨w, r, buf, prog, p, ps⟩ := st
  simp only at hbuf
  subst hbuf
  simp only [sendDataLoop, writeData, readByte]
  rcases env.rsp r with _ | b <;> rfl

/-- A run of `k` consecutive NAK answers rewrites the loop to the same loop
with `k` fewer attempts, `k` identical retransmissions recorded and `k`
response bytes consumed. -/
theorem sendDataLoop_nak_prefix (data : List Nat) (env : Env) (k : Nat) :
    ∀ (n : Nat) (st : XState), st.buffer = [] → k < n →
    (∀ j, j < k → env.rsp (st.reads + j) = some NAK) →
    sendDataLoop data env n st =
      sendDataLoop data env (n - k)
        { st with writes := st.writes ++ List.replicate k data,
                  reads := st.reads + k } := by
  induction k with
  | zero => intro n st hbuf hk hnak; simp
  | succ k ih =>
    intro n st hbuf hk hnak
    obtain ⟨n', rfl⟩ : ∃ m, n = m + 1 := ⟨n - 1, by omega⟩
    rw [sendDataLoop_succ _ _ _ _ hbuf]
    have h0 : env.rsp st.reads = some NAK := by
      simpa using hnak 0 (by omega)
    rw [h0]
    have hne : n' ≠ 0 := by omega
    simp only [show (NAK ≠ ACK) from by decide, if_neg, if_pos, reduceIte,
      hne, ite_false]
    rw [ih n' _ (by simpa using hbuf) (by omega)
      (by intro j hj; simpa [Nat.add_assoc] using hnak (1 + j) (by omega))]
    congr 1
    · omega
    · simp [List.replicate_succ, Nat.add_comm, Nat.add_assoc, Nat.add_left_comm]

/-- C2: for one transmission unit (a data packet or the EOT symbol, each
call having its own attempt counter): max_failures + 1 consecutive NAKs
abort with TooManyFailures after exactly max_failures + 1 identical writes,
while at most max_failures NAKs followed by an ACK succeed, every
retransmission writing bytes identical to the original. -/
theorem xmodem_retry_behaviour (data : List Nat) (env : Env)
    (max_failures k : Nat) (st : XState) (hbuf : st.buffer = []) :
    ((∀ j, j ≤ max_failures → env.rsp (st.reads + j) = some NAK) →
      send_xmodem128_crc_data data env max_failures st =
        (.error .tooManyFailures,
         { st with
             writes := st.writes ++ List.replicate (max_failures + 1) data,
             reads := st.reads + (max_failures + 1) }))
    ∧ (k ≤ max_failures →
      (∀ j, j < k → env.rsp (st.reads + j) = some NAK) →
      env.rsp (st.reads + k) = some ACK →
      send_xmodem128_crc_data data env max_failures st =
        (.ok (),
         { st with writes := st.writes ++ List.replicate (k + 1) data,
                   reads := st.reads + (k + 1) })) := by
  constructor
  · intro hnak
    rw [send_xmodem128_crc_data,
      sendDataLoop_nak_prefix data env max_failures (max_failures + 1) st hbuf
        (by omega) (fun j hj => hnak j (by omega))]
    rw [show max_failures + 1 - max_failures = 0 + 1 by omega]
    rw [sendDataLoop_succ _ _ _ _ (by simpa using hbuf)]
    dsimp only
    rw [hnak max_failures (by omega)]
    simp [List.replicate_succ', Nat.add_assoc, ACK, NAK]
  · intro hk hnak hack
    rw [send_xmodem128_crc_data,
      sendDataLoop_nak_prefix data env k (max_failures + 1) st hbuf
        (by omega) hnak]
    obtain ⟨m, hm⟩ : ∃ m, max_failures + 1 - k = m + 1 :=
      ⟨max_failures - k, by omega⟩
    rw [hm, sendDataLoop_succ _ _ _ _ (by simpa using hbuf)]
    dsimp only
    rw [hack]
    simp [List.replicate_succ', Nat.add_assoc]

/-- C2 witness: with max_failures = 2, three straight NAKs abort with
TooManyFailures after three identical writes, and one NAK followed by an
ACK succeeds after two identical writes. -/
theorem xmodem_retry_behaviour_witness :
    (send_xmodem128_crc_data [9] envAllNak 2 st0 =
      (.error .tooManyFailures,
       { st0 with writes := st0.writes ++ List.replicate 3 [9],
                  reads := st0.reads + 3 }))
    ∧ (send_xmodem128_crc_data [9] envNakThenAck 2 st0 =
      (.ok (),
       { st0 with writes := st0.writes ++ List.replicate 2 [9],
                  reads := st0.reads + 2 })) :=
  ⟨(xmodem_retry_behaviour [9] envAllNak 2 0 st0 rfl).1 (fun _ _ => rfl),
   (xmodem_retry_behaviour [9] envNakThenAck 2 1 st0 rfl).2 (by decide)
     (fun j hj => by interval_cases j; rfl) rfl⟩

/-- C3: after each write the loop reads exactly one response byte and
classifies it (possibly after a run of NAK retries): ACK accepts, CAN
aborts immediately with ReceiverCancelled and no further write follows the
observed CAN, and any byte outside ACK/NAK/CAN aborts immediately with
ProtocolViolation and no retry; the three failure outcomes are mutually
distinguishable. -/
theorem xmodem_response_classification (data : List Nat) (env : Env)
    (max_failures k b : Nat) (st : XState) (hbuf : st.buffer = [])
    (hk : k ≤ max_failures)
    (hnak : ∀ j, j < k → env.rsp (st.reads + j) = some NAK)
    (hb : env.rsp (st.reads + k) = some b) :
    (b = ACK →
      send_xmodem128_crc_data data env max_failures st =
        (.ok (),
         { st with writes := st.writes ++ List.replicate (k + 1) data,
                   reads := st.reads + (k + 1) }))
    ∧ (b = CAN →
      send_xmodem128_crc_data data env max_failures st =
        (.error .receiverCancelled,
         { st with writes := st.writes ++ List.replicate (k + 1) data,
                   reads := st.reads + (k + 1) }))
    ∧ (b ≠ ACK → b ≠ NAK → b ≠ CAN →
      send_xmodem128_crc_data data env max_failures st =
        (.error .protocolViolation,
         { st with writes := st.writes ++ List.replicate (k + 1) data,
                   reads := st.reads + (k + 1) }))
    ∧ (SendError.receiverCancelled ≠ SendError.protocolViolation
       ∧ SendError.receiverCancelled ≠ SendError.tooManyFailures
       ∧ SendError.protocolViolation ≠ SendError.tooManyFailures) := by
  have hrun : send_xmodem128_crc_data data env max_failures st =
      sendDataLoop data env (max_failures + 1 - k)
        { st with writes := st.writes ++ List.replicate k data,
                  reads := st.reads + k } := by
    rw [send_xmodem128_crc_data,
      sendDataLoop_nak_prefix data env k (max_failures + 1) st hbuf
        (by omega) hnak]
  obtain ⟨m, hm⟩ : ∃ m, max_failures + 1 - k = m + 1 :=
    ⟨max_failures - k, by omega⟩
  rw [hm] at hrun
  rw [sendDataLoop_succ _ _ _ _ (by simpa using hbuf)] at hrun
  dsimp only at hrun
  rw [hb] at hrun
  refine ⟨?_, ?_, ?_, by decide, by decide, by decide⟩
  · rintro rfl
    rw [hrun]
    simp [List.replicate_succ', Nat.add_assoc]
  · rintro rfl
    rw [hrun]
    simp [List.replicate_succ', Nat.add_assoc, CAN, ACK, NAK]
  · intro hA hN hC
    rw [hrun]
    simp [hA, hN, hC, List.replicate_succ', Nat.add_assoc]

/-- C3 witness: with one prior NAK, an ACK accepts, a CAN aborts with
ReceiverCancelled, and the byte 0x2A aborts with ProtocolViolation. -/
theorem xmodem_response_classification_witness :
    (send_xmodem128_crc_data [9] envNakThenAck 3 st0 =
      (.ok (),
       { st0 with writes := st0.writes ++ List.replicate 2 [9],
                  reads := st0.reads + 2 }))
    ∧ (send_xmodem128_crc_data [9] envAllCan 3 st0 =
      (.error .receiverCancelled,
       { st0 with writes := st0.writes ++ List.replicate 1 [9],
                  reads := st0.reads + 1 }))
    ∧ (send_xmodem128_crc_data [9] envBadByte 3 st0 =
      (.error .protocolViolation,
       { st0 with writes := st0.writes ++ List.replicate 1 [9],
                  reads := st0.reads + 1 })) :=
  ⟨(xmodem_response_classification [9] envNakThenAck 3 1 ACK st0 rfl
      (by decide) (fun j hj => by interval_cases j; rfl) rfl).1 rfl,
   ((xmodem_response_classification [9] envAllCan 3 0 CAN st0 rfl
      (by decide) (fun j hj => by omega) rfl).2.1 rfl),
   ((xmodem_response_classification [9] envBadByte 3 0 0x2A st0 rfl
      (by decide) (fun j hj => by omega) rfl).2.2.1 (by decide) (by decide)
      (by decide))⟩

/-! ## The fully-acknowledged run -/

theorem send_data_ack (data : List Nat) (env : Env) (mf : Nat) (st : XState)
    (hbuf : st.buffer = []) (hr : env.rsp st.reads = some ACK) :
    send_xmodem128_crc_data data env mf st =
      (.ok (), { st with writes := st.writes ++ [data],
                         reads := st.reads + 1 }) := by
  rw [send_xmodem128_crc_data, sendDataLoop_succ _ _ _ _ hbuf, hr]
  simp

theorem sendBlocks_allAck (data : List Nat) (env : Env) (mf : Nat) (cb : Bool)
    (hr : ∀ i, env.rsp i = some ACK) :
    ∀ (idxs : List Nat) (st : XState), st.buffer = [] →
    sendBlocks data env mf cb idxs st =
      (.ok (),
       { st with
           writes := st.writes
             ++ idxs.map (fun i => (blockPacket data i).serialize),
           reads := st.reads + idxs.length,
           progress := st.progress ++ (if cb then
             idxs.map (fun i => ((i + 1) * BLOCK_SIZE, data.length))
             else []) }) := by
  intro idxs
  induction idxs with
  | nil =>
    intro st hbuf
    cases cb <;> simp [sendBlocks]
  | cons i rest ih =>
    intro st hbuf
    simp only [sendBlocks]
    rw [send_data_ack _ _ _ _ hbuf (hr _)]
    cases cb
    · dsimp only [Bool.false_eq_true, if_false]
      rw [ih _ (by simpa using hbuf)]
      simp [Nat.add_comm, Nat.add_assoc, Nat.add_left_comm]
    · dsimp only [if_true]
      rw [ih _ (by simpa using hbuf)]
      simp [Nat.add_comm, Nat.add_assoc, Nat.add_left_comm]

/-- Full characterization of a send against a receiver that completes the
handshake and acknowledges every write. -/
theorem send_allAck_run (data : List Nat) (env : Env) (mf : Nat) (cb : Bool)
    (st : XState) (rest : List Nat)
    (hlen : data.length % BLOCK_SIZE = 0)
    (hhs : env.handshake = some rest)
    (hr : ∀ i, env.rsp i = some ACK) :
    send_xmodem128_crc data env mf cb st =
      (.ok (),
       { writes := st.writes
           ++ (List.range (data.length / BLOCK_SIZE)).map
                (fun i => (blockPacket data i).serialize)
           ++ [[EOT]],
         reads := st.reads + data.length / BLOCK_SIZE + 1,
         buffer := [],
         progress := st.progress ++ (if cb then
           (0, data.length) ::
             (List.range (data.length / BLOCK_SIZE)).map
               (fun i => ((i + 1) * BLOCK_SIZE, data.length)) else []),
         protocol := st.protocol,
         protocolSets := st.protocolSets + 2 }) := by
  obtain ⟨w, r, buf, prog, p, ps⟩ := st
  rw [send_xmodem128_crc, if_neg (by simpa using hlen)]
  simp only [sendBody]
  rw [hhs]
  dsimp only
  cases cb
  · rw [sendBlocks_allAck data env mf false hr _ _ rfl]
    dsimp only
    rw [send_data_ack _ _ _ _ rfl (hr _)]
    simp [Nat.add_comm, Nat.add_assoc, Nat.add_left_comm, List.append_assoc]
  · rw [sendBlocks_allAck data env mf true hr _ _ rfl]
    dsimp only
    rw [send_data_ack _ _ _ _ rfl (hr _)]
    simp [Nat.add_comm, Nat.add_assoc, Nat.add_left_comm, List.append_assoc]

/-! ## Protocol-restoration invariants -/

theorem readByte_protocol_inv (env : Env) (st : XState) (b : Nat)
    (st' : XState) (h : readByte env st = some (b, st')) :
    st'.protocol = st.protocol ∧ st'.protocolSets = st.protocolSets := by
  unfold readByte at h
  rcases hbuf : st.buffer with _ | ⟨x, rest⟩ <;> rw [hbuf] at h
  · rcases hr : env.rsp st.reads with _ | y <;> rw [hr] at h
    · exact absurd h (by simp)
    · simp only [Option.some.injEq, Prod.mk.injEq] at h
      rw [← h.2]
      exact ⟨rfl, rfl⟩
  · simp only [Option.some.injEq, Prod.mk.injEq] at h
    rw [← h.2]
    exact ⟨rfl, rfl⟩

theorem sendDataLoop_protocol_inv (data : List Nat) (env : Env) :
    ∀ (n : Nat) (st : XState),
    (sendDataLoop data env n st).2.protocol = st.protocol
    ∧ (sendDataLoop data env n st).2.protocolSets = st.protocolSets := by
  intro n
  induction n with
  | zero => intro st; exact ⟨rfl, rfl⟩
  | succ n ih =>
    intro st
    simp only [sendDataLoop]
    rcases hrb : readByte env (writeData st data) with _ | ⟨b, st2⟩
    · exact ⟨rfl, rfl⟩
    · have h2 := readByte_protocol_inv env (writeData st data) b st2 hrb
      simp only [writeData] at h2
      by_cases hA : b = ACK
      · simp [hA, h2.1, h2.2]
      · by_cases hN : b = NAK
        · by_cases h0 : n = 0
          · simp [hA, hN, h0, h2.1, h2.2, ACK, NAK]
          · have h3 := ih st2
            simp [hA, hN, h0, h2.1, h2.2, h3.1, h3.2, ACK, NAK]
        · by_cases hC : b = CAN
          · simp [hA, hN, hC, h2.1, h2.2, ACK, NAK, CAN]
          · simp only [ACK, NAK, CAN] at hA hN hC ⊢
            simp [hA, hN, hC, h2.1, h2.2]

theorem sendBlocks_protocol_inv (data : List Nat) (env : Env) (mf : Nat)
    (cb : Bool) :
    ∀ (idxs : List Nat) (st : XState),
    (sendBlocks data env mf cb idxs st).2.protocol = st.protocol
    ∧ (sendBlocks data env mf cb idxs st).2.protocolSets = st.protocolSets := by
  intro idxs
  induction idxs with
  | nil => intro st; exact ⟨rfl, rfl⟩
  | cons i rest ih =>
    intro st
    simp only [sendBlocks]
    rcases hs : send_xmodem128_crc_data (blockPacket data i).serialize env mf st
      with ⟨res, st1⟩
    have h1 : st1.protocol = st.protocol ∧ st1.protocolSets = st.protocolSets := by
      have := sendDataLoop_protocol_inv (blockPacket data i).serialize env
        (mf + 1) st
      rw [send_xmodem128_crc_data] at hs
      rw [hs] at this
      exact this
    rcases res with e | u
    · simpa using h1
    · cases cb
      · have h2 := ih st1
        simpa using ⟨h2.1.trans h1.1, h2.2.trans h1.2⟩
      · have h2 := ih { st1 with progress :=
          st1.progress ++ [((i + 1) * BLOCK_SIZE, data.length)] }
        simpa using ⟨h2.1.trans h1.1, h2.2.trans h1.2⟩

theorem sendBody_protocol_inv (data : List Nat) (env : Env) (mf : Nat)
    (cb : Bool) (st : XState) :
    (sendBody data env mf cb st).2.protocol = st.protocol
    ∧ (sendBody data env mf cb st).2.protocolSets = st.protocolSets := by
  simp only [sendBody]
  rcases hhs : env.handshake with _ | rest
  · exact ⟨rfl, rfl⟩
  · dsimp only
    set st3 : XState := { (if cb then { { st with buffer := rest } with
        progress := st.progress ++ [(0, data.length)] }
        else { st with buffer := rest }) with buffer := [] } with hst3
    have hst3p : st3.protocol = st.protocol ∧ st3.protocolSets = st.protocolSets := by
      cases cb <;> simp [hst3]
    rcases hb : sendBlocks data env mf cb
        (List.range (data.length / BLOCK_SIZE)) st3 with ⟨res, st4⟩
    have h4 : st4.protocol = st3.protocol ∧ st4.protocolSets = st3.protocolSets := by
      have := sendBlocks_protocol_inv data env mf cb
        (List.range (data.length / BLOCK_SIZE)) st3
      rw [hb] at this
      exact this
    rcases res with e | u
    · exact ⟨h4.1.trans hst3p.1, h4.2.trans hst3p.2⟩
    · have h5 := sendDataLoop_protocol_inv [EOT] env (mf + 1) st4
      rw [show sendDataLoop [EOT] env (mf + 1) st4
          = send_xmodem128_crc_data [EOT] env mf st4 from rfl] at h5
      exact ⟨h5.1.trans (h4.1.trans hst3p.1), h5.2.trans (h4.2.trans hst3p.2)⟩

/-- C4: whenever the length precondition passes (so the transport's consumer
is swapped), the transport's original protocol is restored to its pre-call
value on every exit path — success, any protocol failure, or an external
cancellation delivered at any await — and the protocol is set exactly twice
(the swap and the restore). -/
theorem send_restores_protocol (data : List Nat) (env : Env) (mf : Nat)
    (cb : Bool) (st : XState) (hlen : data.length % BLOCK_SIZE = 0) :
    (send_xmodem128_crc data env mf cb st).2.protocol = st.protocol
    ∧ (send_xmodem128_crc data env mf cb st).2.protocolSets
        = st.protocolSets + 2 := by
  rw [send_xmodem128_crc, if_neg (by simpa using hlen)]
  constructor
  · rfl
  · have h := (sendBody_protocol_inv data env mf cb
      { st with protocol := st.protocol + 1,
                protocolSets := st.protocolSets + 1 }).2
    dsimp only
    rw [h]

/-- C4 witness: after a run cancelled during the handshake, the protocol is
back to its pre-call value with exactly two protocol sets. -/
theorem send_restores_protocol_witness :
    (send_xmodem128_crc [] envNoHandshake 3 false st0).2.protocol
        = st0.protocol
    ∧ (send_xmodem128_crc [] envNoHandshake 3 false st0).2.protocolSets
        = st0.protocolSets + 2 :=
  send_restores_protocol [] envNoHandshake 3 false st0 (by decide)

/-- C5: when the data length is not a multiple of 128, send fails with
InvalidInput before any I/O: the interaction state is returned untouched —
nothing written, nothing read, the consumer never swapped. -/
theorem send_invalid_length (data : List Nat) (env : Env) (mf : Nat)
    (cb : Bool) (st : XState) (hlen : data.length % BLOCK_SIZE ≠ 0) :
    send_xmodem128_crc data env mf cb st = (.error .invalidInput, st)
    ∧ (send_xmodem128_crc data env mf cb st).2.writes = st.writes
    ∧ (send_xmodem128_crc data env mf cb st).2.protocolSets
        = st.protocolSets := by
  have e : send_xmodem128_crc data env mf cb st = (.error .invalidInput, st) := by
    rw [send_xmodem128_crc, if_pos hlen]
  exact ⟨e, by rw [e], by rw [e]⟩

/-- C5 witness: three bytes of data are rejected with InvalidInput and the
state is untouched. -/
theorem send_invalid_length_witness :
    send_xmodem128_crc [1, 2, 3] envAllAck 3 true st0
        = (.error .invalidInput, st0)
    ∧ (send_xmodem128_crc [1, 2, 3] envAllAck 3 true st0).2.writes = st0.writes
    ∧ (send_xmodem128_crc [1, 2, 3] envAllAck 3 true st0).2.protocolSets
        = st0.protocolSets :=
  send_invalid_length [1, 2, 3] envAllAck 3 true st0 (by decide)

/-- C9: empty data passes the length precondition; the sender still performs
the handshake, reports progress (0, 0) exactly once, transmits no data
packet, and writes only the single EOT byte (here acknowledged). -/
theorem send_empty_data (env : Env) (mf : Nat) (st : XState) (rest : List Nat)
    (hhs : env.handshake = some rest) (hack : env.rsp st.reads = some ACK) :
    send_xmodem128_crc [] env mf true st =
      (.ok (), { st with writes := st.writes ++ [[EOT]],
                         reads := st.reads + 1,
                         buffer := [],
                         progress := st.progress ++ [(0, 0)],
                         protocolSets := st.protocolSets + 2 }) := by
  obtain ⟨w, r, buf, prog, p, ps⟩ := st
  rw [send_xmodem128_crc, if_neg (by simp)]
  simp only [sendBody]
  rw [hhs]
  dsimp only
  simp only [show List.range (List.length ([] : List Nat) / BLOCK_SIZE) = []
    from rfl, sendBlocks, if_true]
  have hack2 : env.rsp r = some ACK := hack
  rw [send_data_ack _ _ _ _ rfl hack2]
  simp

/-- C9 witness: empty data against an acknowledging receiver yields exactly
one EOT write and one (0, 0) progress call. -/
theorem send_empty_data_witness :
    send_xmodem128_crc [] envAllAck 3 true st0 =
      (.ok (), { st0 with writes := st0.writes ++ [[EOT]],
                          reads := st0.reads + 1,
                          buffer := [],
                          progress := st0.progress ++ [(0, 0)],
                          protocolSets := st0.protocolSets + 2 }) :=
  send_empty_data envAllAck 3 st0 [0x43] rfl rfl

/-! ## Wire format -/

theorem blockSlice_length (data : List Nat) (i : Nat)
    (hlen : data.length % BLOCK_SIZE = 0) (hi : i < data.length / BLOCK_SIZE) :
    (blockSlice data i).length = 128 := by
  simp only [BLOCK_SIZE] at hlen hi
  simp only [blockSlice, BLOCK_SIZE, List.length_take, List.length_drop]
  omega

theorem serialize_length (p : Xmodem128CRCPacket) :
    p.serialize.length = 3 + p.payload.length + 2 := by
  simp [Xmodem128CRCPacket.serialize, toBytesBE2]
  omega

/-- C1: with the length precondition met (against an acknowledging
receiver), send transmits exactly one packet per 128-byte block in block
order followed by the EOT; the packet for block i carries sequence number
(i+1) mod 256 and serializes to exactly 133 bytes — SOH, the sequence byte,
its complement 255 - seq, the 128-byte slice data[128i:128(i+1)], then the
Variant A CRC-16 of that payload in big-endian, so recomputing the CRC over
the payload reproduces the two embedded CRC bytes. -/
theorem xmodem_wire_format (data : List Nat) (env : Env) (mf : Nat)
    (cb : Bool) (st : XState) (rest : List Nat)
    (hlen : data.length % BLOCK_SIZE = 0)
    (hhs : env.handshake = some rest)
    (hr : ∀ i, env.rsp i = some ACK) :
    ((send_xmodem128_crc data env mf cb st).2.writes
      = st.writes
        ++ (List.range (data.length / BLOCK_SIZE)).map
             (fun i => (blockPacket data i).serialize)
        ++ [[EOT]])
    ∧ ∀ i, i < data.length / BLOCK_SIZE →
        (blockPacket data i).number = (i + 1) % 256
        ∧ (blockPacket data i).payload = (data.drop (128 * i)).take 128
        ∧ (blockPacket data i).serialize.length = 133
        ∧ (blockPacket data i).serialize
            = [0x01, (i + 1) % 256, 0xFF - (i + 1) % 256]
              ++ (blockPacket data i).payload
              ++ [crc16_ccitt ((blockPacket data i).payload) / 256,
                  crc16_ccitt ((blockPacket data i).payload) % 256]
        ∧ (blockPacket data i).serialize.drop 131
            = toBytesBE2 (crc16_ccitt ((blockPacket data i).payload))
        ∧ crc16_ccitt ((blockPacket data i).payload) / 256 < 256
        ∧ crc16_ccitt ((blockPacket data i).payload) % 256 < 256 := by
  constructor
  · rw [send_allAck_run data env mf cb st rest hlen hhs hr]
  · intro i hi
    have hp : (blockPacket data i).payload.length = 128 :=
      blockSlice_length data i hlen hi
    have hlt : crc16_ccitt ((blockPacket data i).payload) < 65536 :=
      crc16_ccitt_lt _
    refine ⟨rfl, rfl, ?_, rfl, ?_, by omega, by omega⟩
    · rw [serialize_length, hp]
    · have e : (blockPacket data i).serialize
          = ([0x01, (i + 1) % 256, 0xFF - (i + 1) % 256]
              ++ (blockPacket data i).payload)
            ++ toBytesBE2 (crc16_ccitt ((blockPacket data i).payload)) := by
        simp [Xmodem128CRCPacket.serialize, blockPacket, SOH,
          List.append_assoc]
      rw [e, show (131 : Nat) = ([0x01, (i + 1) % 256, 0xFF - (i + 1) % 256]
          ++ (blockPacket data i).payload).length from by simp [hp],
        List.drop_left]

/-- C1 witness: one 128-byte block of zeros yields exactly one data packet
followed by the EOT. -/
theorem xmodem_wire_format_witness :
    (List.replicate 128 0 : List Nat).length % BLOCK_SIZE = 0
    ∧ ((send_xmodem128_crc (List.replicate 128 0) envAllAck 3 true st0).2.writes
        = st0.writes
          ++ (List.range 1).map
               (fun i => (blockPacket (List.replicate 128 0) i).serialize)
          ++ [[EOT]])
    ∧ (blockPacket (List.replicate 128 0) 0).serialize.length = 133 :=
  ⟨by decide,
   by
     have h := (xmodem_wire_format (List.replicate 128 0) envAllAck 3 true st0
       [0x43] (by decide) rfl (fun _ => rfl)).1
     simpa [BLOCK_SIZE] using h,
   by
     have h := ((xmodem_wire_format (List.replicate 128 0) envAllAck 3 true st0
       [0x43] (by decide) rfl (fun _ => rfl)).2 0 (by decide)).2.2.1
     exact h⟩

/-- C6: against an acknowledging receiver with a progress callback, send
succeeds after exactly n + 1 writes (n = len/128 data packets plus the EOT);
the callback fires exactly n + 1 times — (0, len) right after the
handshake, then ((i+1)*128, len) after each block i — with strictly
increasing first components that reach len. -/
theorem xmodem_allAck_counts (data : List Nat) (env : Env) (mf : Nat)
    (st : XState) (rest : List Nat)
    (hlen : data.length % BLOCK_SIZE = 0)
    (hhs : env.handshake = some rest)
    (hr : ∀ i, env.rsp i = some ACK) :
    (send_xmodem128_crc data env mf true st).1 = .ok ()
    ∧ (send_xmodem128_crc data env mf true st).2.writes.length
        = st.writes.length + (data.length / BLOCK_SIZE + 1)
    ∧ (send_xmodem128_crc data env mf true st).2.writes.getLast? = some [EOT]
    ∧ (send_xmodem128_crc data env mf true st).2.progress
        = st.progress ++ (0, data.length) ::
            (List.range (data.length / BLOCK_SIZE)).map
              (fun i => ((i + 1) * BLOCK_SIZE, data.length))
    ∧ (send_xmodem128_crc data env mf true st).2.progress.length
        = st.progress.length + (data.length / BLOCK_SIZE + 1)
    ∧ ((0, data.length) :: (List.range (data.length / BLOCK_SIZE)).map
          (fun i => ((i + 1) * BLOCK_SIZE, data.length))).map Prod.fst
        = (List.range (data.length / BLOCK_SIZE + 1)).map (· * BLOCK_SIZE)
    ∧ List.Pairwise (· < ·)
        ((List.range (data.length / BLOCK_SIZE + 1)).map (· * BLOCK_SIZE))
    ∧ ((List.range (data.length / BLOCK_SIZE + 1)).map
          (· * BLOCK_SIZE)).getLast? = some data.length := by
  have run := send_allAck_run data env mf true st rest hlen hhs hr
  refine ⟨by rw [run], ?_, ?_, by rw [run]; simp, ?_, ?_, ?_, ?_⟩
  · rw [run]
    simp
  · rw [run]
    simp [List.getLast?_append]
  · rw [run]
    simp
  · simp only [List.map_cons, List.map_map, List.range_succ_eq_map,
      Nat.zero_mul]
    congr 1
  · exact List.Pairwise.map _
      (fun a b h => by simp only [BLOCK_SIZE]; omega)
      (List.pairwise_lt_range _)
  · rw [List.range_succ, List.map_append, List.getLast?_append]
    simp [Nat.div_mul_cancel (Nat.dvd_of_mod_eq_zero hlen)]

/-- C6 witness: two blocks against an acknowledging receiver give three
writes ending in the EOT and progress (0,256), (128,256), (256,256). -/
theorem xmodem_allAck_counts_witness :
    (List.replicate 256 7 : List Nat).length % BLOCK_SIZE = 0
    ∧ (send_xmodem128_crc (List.replicate 256 7) envAllAck 3 true st0).1
        = .ok ()
    ∧ (send_xmodem128_crc (List.replicate 256 7) envAllAck 3 true st0).2.writes.length
        = st0.writes.length + 3
    ∧ (send_xmodem128_crc (List.replicate 256 7) envAllAck 3 true st0).2.progress
        = st0.progress ++ [(0, 256), (128, 256), (256, 256)] :=
  ⟨by decide,
   (xmodem_allAck_counts (List.replicate 256 7) envAllAck 3 st0 [0x43]
     (by decide) rfl (fun _ => rfl)).1,
   by
     have h := (xmodem_allAck_counts (List.replicate 256 7) envAllAck 3 st0
       [0x43] (by decide) rfl (fun _ => rfl)).2.1
     simpa [BLOCK_SIZE] using h,
   by
     have h := (xmodem_allAck_counts (List.replicate 256 7) envAllAck 3 st0
       [0x43] (by decide) rfl (fun _ => rfl)).2.2.2.1
     simpa [BLOCK_SIZE, List.range_succ] using h⟩

/-! ## Named-state coordinator -/

theorem resolveAll_ok (resolved ids : List Nat) (h : ∀ i ∈ ids, i ∉ resolved)
    (hnd : ids.Nodup) :
    resolveAll resolved ids = (.ok (), resolved ++ ids) := by
  induction ids generalizing resolved with
  | nil => simp [resolveAll]
  | cons i rest ih =>
    simp only [resolveAll]
    rw [if_neg (h i (by simp))]
    rw [ih (resolved ++ [i])]
    · simp
    · intro j hj
      simp only [List.mem_append, List.mem_singleton]
      rintro (hjr | rfl)
      · exact h j (by simp [hj]) hjr
      · exact (List.nodup_cons.mp hnd).1 hj
    · exact (List.nodup_cons.mp hnd).2

/-- C8: construction fails with the invalid-state error exactly when the
initial name is undeclared; transition to an undeclared name fails with the
invalid-state error leaving the machine (active state and waiter
registrations) untouched; on a quiescent machine, transition to a declared
name succeeds, sets the active state and wakes exactly the waiters
registered for that name (waiters for other states stay untouched); and
waiting for the already-active state returns immediately, unchanged. -/
theorem statemachine_contract :
    (∀ (states : List String) (initial : String),
      (initial ∈ states →
        StateMachine.new states initial =
          .ok { states := states, state := initial, pending := [],
                resolved := [], nextId := 0 })
      ∧ (initial ∉ states →
        StateMachine.new states initial = .error .invalidState))
    ∧ (∀ (sm : StateMachine) (s : String), s ∉ sm.states →
        sm.setState s = (.error .invalidState, sm))
    ∧ (∀ (sm : StateMachine) (s : String), s ∈ sm.states → sm.WF →
        sm.setState s = (.ok (),
          { sm with state := s,
                    resolved := sm.resolved
                      ++ (sm.pending.filter (fun q => q.1 = s)).map Prod.snd })
        ∧ (sm.setState s).2.pending = sm.pending
        ∧ ∀ q ∈ sm.pending, q.1 ≠ s →
            (q.2 ∈ (sm.setState s).2.resolved ↔ q.2 ∈ sm.resolved))
    ∧ (∀ sm : StateMachine, sm.state ∈ sm.states →
        sm.wait_for_state sm.state = some (.immediate, sm)) := by
  refine ⟨?_, ?_, ?_, ?_⟩
  · intro states initial
    constructor
    · intro h
      simp [StateMachine.new, h]
    · intro h
      simp [StateMachine.new, h]
  · intro sm s h
    simp [StateMachine.setState, h]
  · intro sm s hs hwf
    have hids : ∀ i ∈ (sm.pending.filter (fun q => q.1 = s)).map Prod.snd,
        i ∉ sm.resolved := by
      intro i hi
      simp only [List.mem_map, List.mem_filter] at hi
      obtain ⟨q, ⟨hq, _⟩, rfl⟩ := hi
      exact hwf.2 q hq
    have hnd : ((sm.pending.filter (fun q => q.1 = s)).map Prod.snd).Nodup :=
      hwf.1.sublist ((List.filter_sublist sm.pending).map Prod.snd)
    have hset : sm.setState s = (.ok (),
        { sm with state := s,
                  resolved := sm.resolved
                    ++ (sm.pending.filter (fun q => q.1 = s)).map Prod.snd }) := by
      simp only [StateMachine.setState, if_pos hs]
      rw [resolveAll_ok _ _ hids hnd]
    refine ⟨hset, by rw [hset], ?_⟩
    intro q hq hqs
    rw [hset]
    simp only [List.mem_append]
    constructor
    · rintro (hin | hin)
      · exact hin
      · exfalso
        simp only [List.mem_map, List.mem_filter] at hin
        obtain ⟨q', ⟨hq', hq's⟩, hqq'⟩ := hin
        have : q' = q := by
          have hinj := List.inj_on_of_nodup_map hwf.1
          exact hinj hq' hq hqq'
        rw [this] at hq's
        exact hqs (by simpa using hq's)
    · intro hin
      exact Or.inl hin
  · intro sm h
    simp [StateMachine.wait_for_state, h]

/-- C8 witness: on the sample machine, construction, rejected transition,
successful transition waking the registered waiter, and the immediate
wait are all as characterized. -/
theorem statemachine_contract_witness :
    StateMachine.new ["a", "b"] "a" = .ok
      { states := ["a", "b"], state := "a", pending := [], resolved := [],
        nextId := 0 }
    ∧ StateMachine.new ["a", "b"] "c" = .error .invalidState
    ∧ smSample.setState "c" = (.error .invalidState, smSample)
    ∧ smSample.setState "b" = (.ok (),
        { smSample with
            state := "b"
            resolved := smSample.resolved
              ++ (smSample.pending.filter (fun q => q.1 = "b")).map Prod.snd })
    ∧ smSample.wait_for_state "a" = some (.immediate, smSample) :=
  ⟨(statemachine_contract.1 ["a", "b"] "a").1 (by decide),
   (statemachine_contract.1 ["a", "b"] "c").2 (by decide),
   statemachine_contract.2.1 smSample "c" (by decide),
   (statemachine_contract.2.2.1 smSample "b" (by decide) (by decide)).1,
   statemachine_contract.2.2.2 smSample (by decide)⟩

/-! ## Padding -/

theorem bytesRepeat_singleton (p n : Nat) :
    bytesRepeat [p] n = List.replicate n p := by
  induction n with
  | zero => rfl
  | succ n ih =>
    simp only [bytesRepeat, List.replicate_succ, List.flatten_cons] at ih ⊢
    rw [ih]
    rfl

/-- C10: for every byte string, positive multiple and one-byte padding:
when the length is already a multiple the data comes back unchanged;
otherwise the padding byte is repeated up to the next multiple; in both
cases the result starts with the data unmodified and its length is the
least multiple of m that is at least the data length. -/
theorem pad_to_multiple_spec (data : List Nat) (m p : Nat) (hm : 0 < m) :
    (data.length % m = 0 → pad_to_multiple data m [p] = some data)
    ∧ (data.length % m ≠ 0 →
        pad_to_multiple data m [p]
          = some (data
              ++ List.replicate (m * (data.length / m + 1) - data.length) p))
    ∧ ∃ r, pad_to_multiple data m [p] = some r
        ∧ r.take data.length = data
        ∧ r.length % m = 0
        ∧ data.length ≤ r.length
        ∧ r.length < data.length + m := by
  have hd : data.length = m * (data.length / m) + data.length % m :=
    (Nat.div_add_mod data.length m).symm
  have hmod : data.length % m < m := Nat.mod_lt _ hm
  refine ⟨fun h0 => ?_, fun h0 => ?_, ?_⟩
  · simp [pad_to_multiple, h0]
  · simp [pad_to_multiple, h0, bytesRepeat_singleton]
  · by_cases h0 : data.length % m = 0
    · refine ⟨data, by simp [pad_to_multiple, h0], List.take_length data, h0,
        Nat.le_refl _, by omega⟩
    · refine ⟨data ++ List.replicate
          (m * (data.length / m + 1) - data.length) p,
        by simp [pad_to_multiple, h0, bytesRepeat_singleton], ?_, ?_, ?_, ?_⟩
      · exact List.take_left data _
      · have hge : data.length ≤ m * (data.length / m + 1) := by
          rw [Nat.mul_succ]
          omega
        have hlen2 : (data ++ List.replicate
            (m * (data.length / m + 1) - data.length) p).length
            = m * (data.length / m + 1) := by
          simp only [List.length_append, List.length_replicate]
          omega
        rw [hlen2]
        exact Nat.mul_mod_right m _
      · simp
      · have hlt : m * (data.length / m + 1) < data.length + m := by
          rw [Nat.mul_succ]
          omega
        simp only [List.length_append, List.length_replicate]
        omega

/-- C10 witness: padding five bytes to a multiple of four appends three
copies of the padding byte; four bytes come back unchanged. -/
theorem pad_to_multiple_spec_witness :
    pad_to_multiple [1, 2, 3, 4] 4 [0xFF] = some [1, 2, 3, 4]
    ∧ pad_to_multiple [1, 2, 3, 4, 5] 4 [0xFF]
        = some ([1, 2, 3, 4, 5] ++ List.replicate 3 0xFF) :=
  ⟨(pad_to_multiple_spec [1, 2, 3, 4] 4 0xFF (by decide)).1 (by decide),
   by
     have h := (pad_to_multiple_spec [1, 2, 3, 4, 5] 4 0xFF
       (by decide)).2.1 (by decide)
     simpa using h⟩

end Usf
